import Mathlib

/-!
# Verification of the Fetch-API message model (headers / body / request / response)

Shallow embedding of the repository's `src/fetch` core:
* `src/fetch/headers.ts`  — case-insensitive multi-valued header map
* `src/fetch/body.ts`     — single-use message body with size cap and clone
* `src/fetch/request.ts`  — outbound request envelope and transport projection
* `src/fetch/errors/fetch-error.ts` — error taxonomy and the Response class

JavaScript strings are modelled as Lean `String`; byte buffers as `List Nat`
(one `Nat` per byte).  Header names accepted by the validation regex are pure
ASCII, where Lean's code-point comparison coincides with JavaScript's UTF-16
code-unit comparison.
-/

namespace Fetch

/-! ## String utilities (ASCII case folding and JS default sort order) -/

/-- ASCII lower-casing of a character (`String.prototype.toLowerCase` on the
ASCII range, which is all that header names can contain). -/
def lowerChar (c : Char) : Char :=
  if 65 ≤ c.toNat ∧ c.toNat ≤ 90 then Char.ofNat (c.toNat + 32) else c

/-- ASCII upper-casing of a character. -/
def upperChar (c : Char) : Char :=
  if 97 ≤ c.toNat ∧ c.toNat ≤ 122 then Char.ofNat (c.toNat - 32) else c

/-- `s.toLowerCase()` restricted to ASCII case folding. -/
def lowerStr (s : String) : String := String.mk (s.data.map lowerChar)

/-- `s.toUpperCase()` restricted to ASCII case folding. -/
def upperStr (s : String) : String := String.mk (s.data.map upperChar)

/-- Lexicographic comparison of character lists by code point.  This is the
comparison used by JavaScript's default `Array.prototype.sort` on strings
(code-unit order; identical to code-point order on the ASCII header names
stored in the map). -/
def charsLe : List Char → List Char → Bool
  | [], _ => true
  | _ :: _, [] => false
  | a :: as, b :: bs =>
    if a.toNat < b.toNat then true
    else if b.toNat < a.toNat then false
    else charsLe as bs

/-- JS default string sort order. -/
def strLe (a b : String) : Bool := charsLe a.data b.data

/-- `strLe` as a relation, for use with `List.insertionSort` / `List.Sorted`. -/
def strLeRel (a b : String) : Prop := strLe a b = true

instance : DecidableRel strLeRel := fun a b => by
  unfold strLeRel; infer_instance

/-- The byte content of a JS string (`Buffer.from(s)`).  All string payloads
appearing in the verified claims are ASCII, where the UTF-8 bytes are exactly
the code points. -/
def strBytes (s : String) : List Nat := s.data.map Char.toNat

/-- `values.join(", ")` on a header's value list. -/
def joinComma : List String → String
  | [] => ""
  | [v] => v
  | v :: vs => v ++ ", " ++ joinComma vs

/-! ## Header grammar validation (`validateName` / `validateValue`)

`invalidTokenRegex = /[^_`+backtick+`a-zA-Z\-0-9!#$%&'*+.|~]/` — a name is
rejected when it contains a character outside the token set, or is empty.
`invalidHeaderCharRegex = /[^\t -~\u0080-ÿ]/` — a value is
rejected when it contains a character outside tab, 0x20–0x7E, 0x80–0xFF. -/

/-- Characters allowed in a header name by `invalidTokenRegex`:
`_` (95), backtick (96), `a-z`, `A-Z`, `-` (45), `0-9`, `!#$%&'*+.|~`. -/
def isTokenChar (c : Char) : Bool :=
  let n := c.toNat
  n == 95 || n == 96 || (97 ≤ n && n ≤ 122) || (65 ≤ n && n ≤ 90) ||
  n == 45 || (48 ≤ n && n ≤ 57) || n == 33 || n == 35 || n == 36 ||
  n == 37 || n == 38 || n == 39 || n == 42 || n == 43 || n == 46 ||
  n == 124 || n == 126

/-- Characters allowed in a header value by `invalidHeaderCharRegex`. -/
def isValueChar (c : Char) : Bool :=
  let n := c.toNat
  n == 9 || (32 ≤ n && n ≤ 126) || (128 ≤ n && n ≤ 255)

/-- `validateName` succeeds: the name is nonempty and all-token characters. -/
def validName (s : String) : Bool := s ≠ "" && s.data.all isTokenChar

/-- `validateValue` succeeds. -/
def validValue (s : String) : Bool := s.data.all isValueChar

/-! ## Error taxonomy -/

/-- Machine-readable subtype carried by a `FetchError`
(`src/fetch/errors/fetch-error.ts`). -/
inductive FetchErrType where
  | system
  | bodyTimeout
  | maxSize
  deriving DecidableEq, Repr

/-- The errors (thrown values / promise rejections) the embedded code can
produce. -/
inductive JsErr where
  /-- A `TypeError` with the given message. -/
  | typeError (msg : String)
  /-- A `FetchError` with the given machine-readable subtype. -/
  | fetchErr (t : FetchErrType)
  /-- A plain `Error` with the given message (used by the body clone). -/
  | plainError (msg : String)
  /-- A promise rejected with a non-Error reason (`Promise.reject('no body')`). -/
  | rejected (reason : String)
  deriving DecidableEq, Repr

/-- Message of the `TypeError` thrown by `consumeBody` on a disturbed body
(the source interpolates `this.url`, which is never assigned on a `Body`). -/
def bodyUsedMsg : String := "body used already"

/-- Message of the plain `Error` thrown when cloning a used body. -/
def cloneUsedMsg : String := "cannot clone body after it is used"

/-- Message of the `TypeError` for a GET/HEAD request with a body. -/
def getHeadBodyMsg : String := "Request with GET/HEAD method cannot have body"

/-! ## HeaderMap (`src/fetch/headers.ts`)

The symbol-keyed `MAP` object is modelled as an insertion-ordered association
list from the original-cased name to its value list.  `for (const key in map)`
enumerates own keys in insertion order, which the list order mirrors. -/

/-- The `this[MAP]` object: original-cased name ↦ ordered value list. -/
abbrev HeaderMap := List (String × List String)

/-- `find(map, name)`: the first stored key equal to `name` up to case. -/
def findKey (m : HeaderMap) (name : String) : Option String :=
  (m.find? (fun e => lowerStr e.1 == lowerStr name)).map (·.1)

/-- Exact-key lookup of the stored value list (used after `findKey`). -/
def lookupKey (m : HeaderMap) (key : String) : List String :=
  ((m.find? (fun e => e.1 == key)).map (·.2)).getD []

/-- `Headers.get(name)`: validates the name, returns `none` when absent, else
the values joined with `", "`, lower-cased when the queried name is
`content-encoding`. -/
def headersGet (m : HeaderMap) (name : String) : Except JsErr (Option String) :=
  if ¬ validName name then .error (.typeError "illegal header name") else
  match findKey m name with
  | none => .ok none
  | some key =>
    let val := joinComma (lookupKey m key)
    .ok (some (if lowerStr name == "content-encoding" then lowerStr val else val))

/-- `Headers.set(name, value)`: validates both, then replaces the value list of
the case-insensitively matching key in place (keeping its stored casing), or
appends a new entry. -/
def headersSet (m : HeaderMap) (name value : String) : Except JsErr HeaderMap :=
  if ¬ validName name then .error (.typeError "illegal header name") else
  if ¬ validValue value then .error (.typeError "illegal header value") else
  .ok (match findKey m name with
    | some key => m.map (fun e => if e.1 == key then (e.1, [value]) else e)
    | none => m ++ [(name, [value])])

/-- `Headers.append(name, value)`: validates both, then pushes onto the
case-insensitively matching entry, or appends a new single-value entry. -/
def headersAppend (m : HeaderMap) (name value : String) : Except JsErr HeaderMap :=
  if ¬ validName name then .error (.typeError "illegal header name") else
  if ¬ validValue value then .error (.typeError "illegal header value") else
  .ok (match findKey m name with
    | some key => m.map (fun e => if e.1 == key then (e.1, e.2 ++ [value]) else e)
    | none => m ++ [(name, [value])])

/-- `Headers.has(name)`: validates, then case-insensitive existence. -/
def headersHas (m : HeaderMap) (name : String) : Except JsErr Bool :=
  if ¬ validName name then .error (.typeError "illegal header name") else
  .ok (findKey m name).isSome

/-- `Headers.delete(name)`: validates, then removes the matching entry. -/
def headersDelete (m : HeaderMap) (name : String) : Except JsErr HeaderMap :=
  if ¬ validName name then .error (.typeError "illegal header name") else
  .ok (match findKey m name with
    | some key => m.filter (fun e => ¬ e.1 == key)
    | none => m)

/-- `Headers.keys()`: `Object.keys(this[MAP]).sort()` — the stored
(original-cased) names sorted by JS default string order, yielded in order. -/
def headersKeys (m : HeaderMap) : List String :=
  List.insertionSort strLeRel (m.map (·.1))

/-- `Headers.values()`: for each sorted key, its values joined with `", "`. -/
def headersValues (m : HeaderMap) : List String :=
  (headersKeys m).map (fun k => joinComma (lookupKey m k))

/-- The value `this.get(k)` yields for a present key `k` (stored casing):
joined values, lower-cased when `k` is `content-encoding` up to case. -/
def entryValue (m : HeaderMap) (k : String) : String :=
  let val := joinComma (lookupKey m k)
  if lowerStr k == "content-encoding" then lowerStr val else val

/-- `Headers.entries()` / the default iterator: `[k, this.get(k)]` for each
sorted key. -/
def headersEntries (m : HeaderMap) : List (String × String) :=
  (headersKeys m).map (fun k => (k, entryValue m k))

/-- `exportNodeCompatibleHeaders()`: a shallow copy of the map, except that a
`Host` entry's value list is collapsed to its first value only. -/
def exportNodeCompatibleHeaders (m : HeaderMap) : HeaderMap :=
  match findKey m "Host" with
  | none => m
  | some key => m.map (fun e => if e.1 == key then (e.1, e.2.take 1) else e)

/-! ### Headers construction -/

/-- Initializer accepted by `new Headers(init)`: a pair sequence or record
(both append name/value pairs in order), another `Headers` (copied entry by
entry via `append`), or nothing. -/
inductive HeadersArg where
  /-- A `string[][]` pair list or `Record<string,string>` (its own-key
  enumeration order). -/
  | pairs (l : List (String × String))
  /-- An existing `Headers` instance (its raw map). -/
  | hmap (m : HeaderMap)
  deriving DecidableEq, Repr

/-- Append a list of name/value pairs in order. -/
def appendPairs (m : HeaderMap) : List (String × String) → Except JsErr HeaderMap
  | [] => .ok m
  | (n, v) :: rest => do appendPairs (← headersAppend m n v) rest

/-- The raw map flattened back to the (name, value) appends the copying
constructor performs: for each entry in order, each value in order. -/
def rawPairs (m : HeaderMap) : List (String × String) :=
  m.flatMap (fun e => e.2.map (fun v => (e.1, v)))

/-- `new Headers(init)`.  `none` (undefined/null) gives the empty map. -/
def buildHeaders : Option HeadersArg → Except JsErr HeaderMap
  | none => .ok []
  | some (.pairs l) => appendPairs [] l
  | some (.hmap m) => appendPairs [] (rawPairs m)

/-! ## MessageBody (`src/fetch/body.ts`)

A `Body` instance holds symbol-keyed internals `{ body, disturbed, error }`
plus public `size` and `timeout` fields.  The underlying body value is one of
null / Buffer / Blob / Stream after the constructor's normalization. -/

/-- The normalized underlying body value stored in `BODY_INTERNALS.body`. -/
inductive BodySource where
  /-- `null` (undefined and null inputs). -/
  | nullSrc
  /-- A `Buffer` (from a Buffer, ArrayBuffer, view, URLSearchParams, or the
  string-coercion fallback). -/
  | buffer (bytes : List Nat)
  /-- A Blob (kept as-is by the constructor). -/
  | blob (bytes : List Nat) (type : String)
  /-- A readable stream, identified by the id of its upstream source. -/
  | stream (id : Nat)
  deriving DecidableEq, Repr

/-- The state of one `Body` instance. -/
structure BodyState where
  source : BodySource
  /-- `BODY_INTERNALS.disturbed`. -/
  disturbed : Bool := false
  /-- `BODY_INTERNALS.error`: a terminal error recorded by the stream error
  listener before consumption began. -/
  error : Option JsErr := none
  /-- Byte-size cap (`0` = unlimited). -/
  size : Nat := 0
  /-- Drain timeout in ms (`0` = unlimited).  The timer race is real-time
  behaviour and is not part of the embedding; drains are modelled on streams
  that deliver all their chunks. -/
  timeout : Nat := 0
  deriving DecidableEq, Repr

/-- A JavaScript value that can appear as a body argument (`options.body`,
the `Response` constructor's first argument, or the value handed to
`getTotalBytes` / `extractContentType`).  The structural type tests of
`utils/is.ts` are resolved per constructor in the functions below. -/
inductive JsVal where
  /-- The literal `null`. -/
  | nullVal
  /-- A string primitive. -/
  | str (s : String)
  /-- A `Buffer` / `ArrayBuffer` / `ArrayBufferView` (all normalized to a
  Buffer of these bytes by the `Body` constructor). -/
  | buffer (bytes : List Nat)
  /-- A `URLSearchParams` object whose `toString()` is the given string. -/
  | searchParams (encoded : String)
  /-- A Blob: bytes plus declared media type. -/
  | blobVal (bytes : List Nat) (type : String)
  /-- A `form-data` encoder: boundary plus (when known) its sync length. -/
  | formData (boundary : String) (knownLength : Option Nat)
  /-- A readable stream. -/
  | stream (id : Nat)
  /-- A `Body` wrapper instance (the class of `body.ts`).  Structurally it has
  an `arrayBuffer` method but no string `type` field, is not a Buffer, has no
  `getBoundary`/`getLengthSync`, and is not `instanceof Stream`. -/
  | bodyObj (st : BodyState)
  /-- A `Response` instance (what `Response.clone()` feeds back into the
  `Response` constructor).  `String(value)` is `"[object Response]"`. -/
  | respObj
  deriving DecidableEq, Repr

/-- Truthiness of a body argument (`if (bodyIn)` in the Response constructor):
`null` and the empty string are falsy, every other modelled value truthy. -/
def jsTruthy : JsVal → Bool
  | .nullVal => false
  | .str s => s ≠ ""
  | _ => true

/-- The `Body` constructor's normalization of its `body` argument into the
stored source (`body.ts` lines 42–65).  `none` is `undefined`. -/
def mkSource : Option JsVal → BodySource
  | none => .nullSrc
  | some .nullVal => .nullSrc
  | some (.searchParams s) => .buffer (strBytes s)
  | some (.blobVal bs t) => .blob bs t
  | some (.buffer bs) => .buffer bs
  | some (.stream i) => .stream i
  | some (.str s) => .buffer (strBytes s)
  | some (.formData _ _) =>
    -- a form-data object is a readable stream in Node, so it is kept as a
    -- stream; its upstream identity is not otherwise used by the claims
    .stream 0
  | some (.bodyObj _) => .buffer (strBytes "[object Object]")
  | some .respObj => .buffer (strBytes "[object Response]")

/-- `new Body(body, { size = 0, timeout = 0 })`. -/
def mkBody (v : Option JsVal) (size : Nat := 0) (timeout : Nat := 0) : BodyState :=
  { source := mkSource v, disturbed := false, error := none
    size := size, timeout := timeout }

/-- One pass of the stream drain's `data` events (`body.ts` lines 235–253):
each arriving chunk is checked against the cap (`this.size`, `0` disables)
before being accumulated; a chunk that would push the running byte count over
the cap aborts with a `max-size` `FetchError` and later chunks are ignored. -/
def streamAccum (cap : Nat) : Nat → List (List Nat) → Except JsErr (List (List Nat))
  | _, [] => .ok []
  | acc, c :: rest =>
    if cap ≠ 0 ∧ acc + c.length > cap then .error (.fetchErr .maxSize)
    else match streamAccum cap (acc + c.length) rest with
      | .ok cs => .ok (c :: cs)
      | .error e => .error e

/-- `Buffer.concat(accum, accumBytes)`. -/
def concatChunks (l : List (List Nat)) : List Nat := l.foldr (· ++ ·) []

/-- `consumeBody()` (`body.ts` lines 162–278).  `chunks` is the sequence of
data chunks the underlying stream delivers before its `end` event (relevant
to stream sources only).  Returns the drain result together with the updated
body state: the `disturbed` flag is set before any error can be raised except
the already-used check itself. -/
def consumeBody (st : BodyState) (chunks : List (List Nat)) :
    Except JsErr (List Nat) × BodyState :=
  if st.disturbed then (.error (.typeError bodyUsedMsg), st)
  else
    let st' := { st with disturbed := true }
    match st.error with
    | some e => (.error e, st')
    | none =>
      match st.source with
      | .nullSrc => (.ok [], st')
      | .buffer bs => (.ok bs, st')
      | .blob bs _ =>
        -- `body = body.stream()` then the stream drain; the blob's stream
        -- delivers its bytes (modelled as a single chunk), subject to the cap
        ((streamAccum st.size 0 [bs]).map concatChunks, st')
      | .stream _ =>
        ((streamAccum st.size 0 chunks).map concatChunks, st')

/-- `arrayBuffer()`: `consumeBody` then a pure slice of the buffer (the slice
does not touch the body state and is elided). -/
def bodyArrayBuffer (st : BodyState) (chunks : List (List Nat)) :
    Except JsErr (List Nat) × BodyState := consumeBody st chunks

/-- `blob()`: reads `this.headers` (never assigned on a `Body`, hence skipped)
and the blob source's type, then `consumeBody` and a pure `Blob` wrap of the
resulting bytes (elided). -/
def bodyBlob (st : BodyState) (chunks : List (List Nat)) :
    Except JsErr (List Nat) × BodyState := consumeBody st chunks

/-- `json()`: `consumeBody` then `JSON.parse` of the decoded text — a pure
step after the drain that cannot change the body state. -/
def bodyJson (st : BodyState) (chunks : List (List Nat)) :
    Except JsErr (List Nat) × BodyState := consumeBody st chunks

/-- `text()`: `consumeBody` then a pure UTF-8 decode of the bytes (elided). -/
def bodyText (st : BodyState) (chunks : List (List Nat)) :
    Except JsErr (List Nat) × BodyState := consumeBody st chunks

/-- `buffer()`: exactly `consumeBody`. -/
def bodyBuffer (st : BodyState) (chunks : List (List Nat)) :
    Except JsErr (List Nat) × BodyState := consumeBody st chunks

/-- The five public body-consuming accessors. -/
inductive Accessor where
  | text | json | buffer | arrayBuffer | blob
  deriving DecidableEq, Repr

/-- Dispatch to the named accessor. -/
def runAccessor : Accessor → BodyState → List (List Nat) →
    Except JsErr (List Nat) × BodyState
  | .text => bodyText
  | .json => bodyJson
  | .buffer => bodyBuffer
  | .arrayBuffer => bodyArrayBuffer
  | .blob => bodyBlob

/-! ### The clone primitive and object identity

`clone(body)` receives the `Body` wrapper object.  Its tee branch is guarded
by `body instanceof Stream` — but `Body` does not extend `Stream`, so the
guard is false for every argument the two call sites (`Request`'s constructor
and `Response.clone`) can pass, and the function returns its argument: the
same object, not a copy.  Object identity is made observable through a small
heap of `Body` instances. -/

/-- Whether the `Body` wrapper object itself is `instanceof Stream`.  The
`Body` class declares no superclass, so this is false. -/
def bodyWrapperIsStream (_st : BodyState) : Bool := false

/-- A heap of `Body` instances; a body reference is an index. -/
abbrev Heap := List BodyState

/-- `clone(body, highWaterMark)` (`body.ts` lines 308–327) acting on a body
reference: rejects a used body, then — because the tee guard
`body instanceof Stream` tests the wrapper and fails — returns the same
reference with the heap unchanged. -/
def cloneBody (h : Heap) (i : Nat) : Except JsErr (Heap × Nat) :=
  match h[i]? with
  | none => .error (.typeError "no such body")
  | some st =>
    if st.disturbed then .error (.plainError cloneUsedMsg)
    else if bodyWrapperIsStream st then
      -- unreachable tee branch: two PassThrough copies would be created here
      .error (.typeError "unreachable")
    else .ok (h, i)

/-- Drain the body referenced by `i`, writing back its updated state. -/
def heapConsume (h : Heap) (i : Nat) (chunks : List (List Nat)) :
    Except JsErr (List Nat) × Heap :=
  match h[i]? with
  | none => (.error (.typeError "no such body"), h)
  | some st =>
    let r := consumeBody st chunks
    (r.1, h.set i r.2)

/-! ### `extractContentType` and `getTotalBytes` -/

/-- `extractContentType(body)` (`body.ts` lines 369–411), following the
structural checks in source order.  A `Body` wrapper matches none of the
checks (its `type` field is undefined, it is not a Buffer, has no
`getBoundary`, and is not `instanceof Stream`), so it falls through to the
string-coercion default. -/
def extractContentType : Option JsVal → Option String
  | none => none
  | some .nullVal => none
  | some (.str _) => some "text/plain;charset=UTF-8"
  | some (.searchParams _) => some "application/x-www-form-urlencoded;charset=UTF-8"
  | some (.blobVal _ t) => if t = "" then none else some t
  | some (.buffer _) => none
  | some (.formData b _) => some ("multipart/form-data;boundary=" ++ b)
  | some (.stream _) => none
  | some (.bodyObj _) => some "text/plain;charset=UTF-8"
  | some .respObj => some "text/plain;charset=UTF-8"

/-- `getTotalBytes({ body })` (`body.ts` lines 426–451).  The destructured
`body` is whatever the caller's `.body` field holds — for the refactored
`Request` that is the `Body` wrapper, which matches none of the structural
checks (`isBlob` fails on the undefined `type`, it is not a Buffer and has no
`getLengthSync`) and reaches the final `return null`. -/
def getTotalBytes : Option JsVal → Option Nat
  | none => some 0
  | some .nullVal => some 0
  | some (.blobVal bs _) => some bs.length
  | some (.buffer bs) => some bs.length
  | some (.formData _ kl) => kl
  | some (.str _) => none
  | some (.stream _) => none
  | some (.searchParams _) => none
  | some (.bodyObj _) => none
  | some .respObj => none

/-! ## OutboundRequest (`src/fetch/request.ts`) -/

/-- The fields of `url.parse` that the core reads (`protocol`, `hostname`;
the remainder of the parsed URL is carried opaquely by `rest`).  `url.parse`
is a Node library function (external to the repository); it is modelled here
only far enough to parse the absolute `http(s)://host/...` references the
claims use: a missing scheme or host yields `none`. -/
structure ParsedUrl where
  protocol : Option String := none
  hostname : Option String := none
  rest : String := ""
  deriving DecidableEq, Repr

/-- Scan for the first `"://"`, returning the scheme characters before it and
the characters after it. -/
def splitScheme : List Char → Option (List Char × List Char)
  | [] => none
  | c :: cs =>
    if c = ':' then
      match cs with
      | '/' :: '/' :: tail => some ([], tail)
      | _ => none
    else
      match splitScheme cs with
      | some p => some (c :: p.1, p.2)
      | none => none

/-- Minimal model of `url.parse` on an already-UTF-8 string (the `utf8.encode`
step is the identity on the ASCII URLs of the claims): split at `"://"`, the
scheme keeps a trailing colon and the host runs to the first slash, both
lower-cased by Node; a reference without a scheme-and-host shape parses with
neither field. -/
def parseUrl (s : String) : ParsedUrl :=
  match splitScheme s.data with
  | some (proto, tail) =>
    let host := tail.takeWhile (· ≠ '/')
    { protocol := some (lowerStr (String.mk proto) ++ ":")
      hostname := if host.isEmpty then none else some (lowerStr (String.mk host))
      rest := String.mk (tail.drop host.length) }
  | none => { protocol := none, hostname := none, rest := s }

/-- `url.format` as used by the `Request.url` getter, restricted to the same
shape `parseUrl` produces. -/
def formatUrl (p : ParsedUrl) : String :=
  (p.protocol.getD "") ++ "//" ++ (p.hostname.getD "") ++ p.rest

/-- A cancellation-handle value: `isAbortSignal` tests the value's
`Symbol.toStringTag` for `'AbortSignal'`. -/
structure SigVal where
  /-- Whether the value's tag is `'AbortSignal'`. -/
  isSignal : Bool
  deriving DecidableEq, Repr

/-- An `http.Agent` value.  Function-valued agents (resolved against the
parsed URL inside `getNodeRequestOptions`) are not exercised by any claim and
are not modelled. -/
abbrev AgentVal := Nat

/-- The `init` options object of the `Request` constructor.  `none` stands
for an absent (undefined) option; for `body` it also covers `null`, which the
constructor treats identically (`!= null`, `??`). -/
structure RequestInit where
  method : Option String := none
  body : Option JsVal := none
  headers : Option HeadersArg := none
  redirect : Option String := none
  /-- `signal?: AbortSignal | null` — the outer `Option` is definedness
  (`init.signal !== undefined`), the inner is null vs a value. -/
  signal : Option (Option SigVal) := none
  timeout : Option Nat := none
  size : Option Nat := none
  follow : Option Nat := none
  compress : Option Bool := none
  counter : Option Nat := none
  agent : Option AgentVal := none
  highWaterMark : Option Nat := none
  deriving DecidableEq, Repr

/-- A constructed `Request`.  `body` is declared `Body | null` in the class
(initialized to `null`) but is assigned a `Body` instance on every
constructor path; `timeout` is the class field that the constructor never
reassigns. -/
structure Request where
  method : String
  parsedURL : ParsedUrl
  headers : HeaderMap
  redirect : String
  signal : Option SigVal
  body : Option BodyState
  follow : Nat
  compress : Bool
  counter : Nat
  agent : Option AgentVal
  highWaterMark : Option Nat
  timeout : Nat := 0
  deriving DecidableEq, Repr

/-- The constructor's `input`: a URL string (or an `href`-bearing object,
identical once the string is extracted) or another `Request`. -/
inductive RequestInput where
  | urlStr (s : String)
  | request (r : Request)
  deriving DecidableEq, Repr

/-- JS `a || b` on possibly-absent strings: an absent or empty (falsy) first
operand falls through. -/
def strOr (a : Option String) (b : String) : String :=
  match a with
  | some s => if s = "" then b else s
  | none => b

/-- JS `a || b || 0` on possibly-absent numbers: absent and `0` are falsy. -/
def natOr (a b : Option Nat) : Nat :=
  match a with
  | some n => if n = 0 then (b.getD 0) else n
  | none => b.getD 0

/-- JS `a || b` on possibly-absent numbers where the result may stay
undefined (used for `agent` and `highWaterMark`). -/
def natOrOpt (a b : Option Nat) : Option Nat :=
  match a with
  | some n => if n = 0 then b else some n
  | none => b

/-- `init.method || input.method || 'GET'`, upper-cased. -/
def resolvedMethod (input : RequestInput) (init : RequestInit) : String :=
  let inputMethod := match input with
    | .request r => some r.method
    | .urlStr _ => none
  upperStr (strOr init.method (strOr inputMethod "GET"))

/-- The condition of the GET/HEAD-with-body check:
`init.body != null || (isRequest(input) && input.body !== null)`. -/
def requestBodySupplied (input : RequestInput) (init : RequestInit) : Bool :=
  init.body.isSome ||
    (match input with
     | .request r => r.body.isSome
     | .urlStr _ => false)

/-- The headers initializer the constructor resolves:
`init.headers || input.headers || {}` (an empty record when both absent). -/
def resolvedHeadersArg (input : RequestInput) (init : RequestInit) : HeadersArg :=
  match init.headers with
  | some a => a
  | none => match input with
    | .request r => .hmap r.headers
    | .urlStr _ => .pairs []

/-- The signal the constructor resolves: `input.signal` for a `Request`
input, overridden whenever `init.signal !== undefined`. -/
def resolvedSignal (input : RequestInput) (init : RequestInit) : Option SigVal :=
  let fromInput := match input with
    | .request r => r.signal
    | .urlStr _ => none
  match init.signal with
  | some s => s
  | none => fromInput

/-- `init.body ?? (isRequest(input) && input.body !== null ?
clone(input.body) : null)` — the right operand invokes the clone primitive,
which rejects a disturbed source body and otherwise (its tee guard being
false for a `Body` wrapper) returns the *same* `Body` object. -/
def resolvedInputBody (input : RequestInput) (init : RequestInit) :
    Except JsErr (Option JsVal) :=
  match init.body with
  | some v => .ok (some v)
  | none =>
    match input with
    | .request r =>
      match r.body with
      | some bst =>
        if bst.disturbed then .error (.plainError cloneUsedMsg)
        else .ok (some (.bodyObj bst))
      | none => .ok none
    | .urlStr _ => .ok none

/-- The `if (inputBody != null && !headers.has('Content-Type'))` auto-append
of the inferred content type. -/
def applyContentType (headers : HeaderMap) (inputBody : Option JsVal) :
    Except JsErr HeaderMap :=
  if inputBody.isSome then
    match headersHas headers "Content-Type" with
    | .error e => .error e
    | .ok true => .ok headers
    | .ok false =>
      match extractContentType inputBody with
      | some ct => headersAppend headers "Content-Type" ct
      | none => .ok headers
  else .ok headers

/-- `option ?? option ?? default` selection (`!== undefined` tests). -/
def pickNat (a b : Option Nat) (d : Nat) : Nat :=
  match a with
  | some n => n
  | none => match b with
    | some n => n
    | none => d

/-- `option ?? option ?? default` selection for booleans. -/
def pickBool (a b : Option Bool) (d : Bool) : Bool :=
  match a with
  | some x => x
  | none => match b with
    | some x => x
    | none => d

/-- `new Request(input, init)` (`request.ts` lines 90–183).  Steps in source
order: parse the target; resolve and upper-case the method; reject GET/HEAD
with a body; resolve the body (`init.body ?? clone(input.body)`); wrap a
non-`Body` value via `new Body`; apply `init.timeout || input.timeout || 0`
and `init.size || input.size || 0` to the body; build fresh headers;
auto-append `Content-Type` from `extractContentType(inputBody)` when absent;
validate the resolved signal; fill the node-fetch extension fields. -/
def constructRequest (input : RequestInput) (init : RequestInit) :
    Except JsErr Request :=
  let parsedURL := match input with
    | .urlStr s => parseUrl s
    | .request r => parseUrl (formatUrl r.parsedURL)
  let method := resolvedMethod input init
  if requestBodySupplied input init ∧ (method = "GET" ∨ method = "HEAD") then
    .error (.typeError getHeadBodyMsg)
  else
    match resolvedInputBody input init with
    | .error e => .error e
    | .ok inputBody =>
      -- this.body = inputBody instanceof Body ? inputBody : new Body(inputBody)
      let bodySt : BodyState :=
        match inputBody with
        | some (.bodyObj st) => st
        | v => mkBody v
      let inputTimeout : Option Nat := match input with
        | .request r => some r.timeout
        | .urlStr _ => none
      let inputSize : Option Nat := match input with
        | .request r => some ((r.body.map (·.size)).getD 0)
        | .urlStr _ => none
      let bodySt := { bodySt with
        timeout := natOr init.timeout inputTimeout
        size := natOr init.size inputSize }
      match buildHeaders (some (resolvedHeadersArg input init)) with
      | .error e => .error e
      | .ok headers0 =>
        match applyContentType headers0 inputBody with
        | .error e => .error e
        | .ok headers =>
          let signal := resolvedSignal input init
          let signalCheck : Except JsErr Unit :=
            match signal with
            | some sv =>
              if sv.isSignal then .ok ()
              else .error (.typeError "Expected signal to be an instanceof AbortSignal")
            | none => .ok ()
          match signalCheck with
          | .error e => .error e
          | .ok _ =>
            let inputRedirect : Option String := match input with
              | .request r => some r.redirect
              | .urlStr _ => none
            .ok {
              method := method
              parsedURL := parsedURL
              headers := headers
              redirect := strOr init.redirect (strOr inputRedirect "follow")
              signal := signal
              body := some bodySt
              follow := pickNat init.follow
                (match input with | .request r => some r.follow | _ => none) 20
              compress := pickBool init.compress
                (match input with | .request r => some r.compress | _ => none) true
              counter := natOr init.counter
                (match input with | .request r => some r.counter | _ => none)
              agent := match init.agent with
                | some a => some a
                | none => match input with | .request r => r.agent | _ => none
              highWaterMark := natOrOpt init.highWaterMark
                (match input with | .request r => r.highWaterMark | _ => none)
            }

/-- Whether a resolved signal value passes the constructor's shape check
(`signal == null || isAbortSignal(signal)`). -/
def signalShapeOk : Option SigVal → Bool
  | none => true
  | some sv => sv.isSignal

/-- The content type extracted from a body value, when present, is a valid
header value (so the constructor's auto-append cannot itself throw). -/
def ctValid (v : JsVal) : Bool :=
  match extractContentType (some v) with
  | some ct => validValue ct
  | none => true

/-- `Request.prototype.clone()`: `new Request(this)`. -/
def requestClone (r : Request) : Except JsErr Request :=
  constructRequest (.request r) {}

/-- The transport-call description `getNodeRequestOptions` returns. -/
structure NodeOpts where
  protocol : Option String
  hostname : Option String
  method : String
  headers : HeaderMap
  agent : Option AgentVal
  deriving DecidableEq, Repr

/-- `getNodeRequestOptions(request)` (`request.ts` lines 279–356): copy the
headers; default `Accept: */*`; reject a non-absolute URL or a non-HTTP(S)
scheme (the abort-signal/stream-destroy rejection is guarded by
`request.body instanceof Stream.Readable`, false for the `Body` wrapper, and
by `!streamDestructionSupported`, false on any Node with
`Readable.prototype.destroy`); compute `Content-Length` — `'0'` only when
`request.body == null` for POST/PUT (unreachable: the constructor always
assigns a `Body`), else `getTotalBytes(request)` on the wrapper; default
`User-Agent`; default `Accept-Encoding` when compressing; default
`Connection: close` when no agent; export the headers. -/
def getNodeRequestOptions (req : Request) : Except JsErr NodeOpts := do
  let headers ← buildHeaders (some (.hmap req.headers))
  let headers ←
    match (← headersHas headers "Accept") with
    | true => pure headers
    | false => headersSet headers "Accept" "*/*"
  if (req.parsedURL.protocol.getD "") = "" ∨ (req.parsedURL.hostname.getD "") = "" then
    throw (.typeError "Only absolute URLs are supported")
  if ¬ (req.parsedURL.protocol = some "http:" ∨ req.parsedURL.protocol = some "https:") then
    throw (.typeError "Only HTTP(S) protocols are supported")
  let contentLength : Option String :=
    if req.body.isNone ∧ (req.method = "POST" ∨ req.method = "PUT") then some "0"
    else none
  let contentLength : Option String :=
    match req.body with
    | some bst =>
      match getTotalBytes (some (.bodyObj bst)) with
      | some n => some (toString n)
      | none => contentLength
    | none => contentLength
  let headers ←
    match contentLength with
    | some v => if v = "" then pure headers else headersSet headers "Content-Length" v
    | none => pure headers
  let headers ←
    match (← headersHas headers "User-Agent") with
    | true => pure headers
    | false =>
        headersSet headers "User-Agent" "node-fetch (+https://github.com/node-fetch/node-fetch)"
  let headers ←
    if req.compress then
      match (← headersHas headers "Accept-Encoding") with
      | true => pure headers
      | false => headersSet headers "Accept-Encoding" "gzip,deflate"
    else pure headers
  let headers ←
    match (← headersHas headers "Connection") with
    | true => pure headers
    | false =>
      if req.agent.isNone then headersSet headers "Connection" "close"
      else pure headers
  return {
    protocol := req.parsedURL.protocol
    hostname := req.parsedURL.hostname
    method := req.method
    headers := exportNodeCompatibleHeaders headers
    agent := req.agent
  }

/-! ## InboundResponse (`src/fetch/errors/fetch-error.ts`, `Response` class) -/

/-- The `opts` object of the `Response` constructor. -/
structure ResponseInit where
  headers : Option HeadersArg := none
  size : Option Nat := none
  counter : Option Nat := none
  status : Option Nat := none
  statusText : Option String := none
  timeout : Option Nat := none
  url : Option String := none
  highWaterMark : Option Nat := none
  deriving DecidableEq, Repr

/-- A constructed `Response`.  The class declares `timeout?: number` but the
constructor never assigns it; `counter` and `highWaterMark` keep the raw
(possibly undefined) option. -/
structure Response where
  status : Nat
  statusText : String
  headers : HeaderMap
  counter : Option Nat
  url : String
  body : Option BodyState
  timeout : Option Nat := none
  highWaterMark : Option Nat := none
  deriving DecidableEq, Repr

/-- The body object a `Response` holds: present only for a truthy `bodyIn`
(`if (bodyIn)`), keeping a `Body` instance as-is and wrapping any other value
via `new Body(bodyIn)` with default size/timeout. -/
def responseBody (bodyIn : Option JsVal) : Option BodyState :=
  match bodyIn with
  | some v =>
    if jsTruthy v then
      some (match v with
        | .bodyObj st => st
        | v' => mkBody (some v'))
    else none
  | none => none

/-- `new Response(bodyIn, opts)` (`fetch-error.ts` lines 85–103): the body as
in `responseBody`; status defaults to 200 and statusText to `''` via `??`;
headers are a fresh copy; when a body exists and no `Content-Type` header is
present, one is appended from `extractContentType(this.body)` — note the
argument is the `Body` *wrapper*, which always extracts as
`text/plain;charset=UTF-8`. -/
def constructResponse (bodyIn : Option JsVal) (opts : ResponseInit) :
    Except JsErr Response :=
  let body := responseBody bodyIn
  match buildHeaders opts.headers with
  | .error e => .error e
  | .ok headers0 =>
    -- if (this.body !== undefined && !this.headers.has('Content-Type')):
    -- append from extractContentType(this.body), i.e. of the Body *wrapper*
    let ctHeaders : Except JsErr HeaderMap :=
      match body with
      | some bst => applyContentType headers0 (some (.bodyObj bst))
      | none => .ok headers0
    match ctHeaders with
    | .error e => .error e
    | .ok headers =>
      .ok {
        status := opts.status.getD 200
        statusText := opts.statusText.getD ""
        headers := headers
        counter := opts.counter
        url := opts.url.getD ""
        body := body
        timeout := none
        highWaterMark := opts.highWaterMark
      }

/-- `Response.prototype.bodyUsed`: `this.body?.bodyUsed ?? false`. -/
def respBodyUsed (resp : Response) : Bool :=
  (resp.body.map (·.disturbed)).getD false

/-- `Response.prototype.size`: `this.body?.size ?? 0`. -/
def respSize (resp : Response) : Nat :=
  (resp.body.map (·.size)).getD 0

/-- A body-consuming accessor on a `Response`
(`this.body?.X() ?? Promise.reject('no body')`): with no body object the
promise rejects with the string reason `'no body'` and nothing is drained;
otherwise the call delegates to the body accessor, whose state is written
back. -/
def respAccess (a : Accessor) (resp : Response) (chunks : List (List Nat)) :
    Except JsErr (List Nat) × Response :=
  match resp.body with
  | none => (.error (.rejected "no body"), resp)
  | some st =>
    let r := runAccessor a st chunks
    (r.1, { resp with body := some r.2 })

/-- `Response.prototype.clone()` (`fetch-error.ts` lines 150–160):
`new Response(clone(this, this.highWaterMark), { url, status, statusText,
headers, size, timeout })`.  The body-clone primitive rejects when
`this.bodyUsed` and otherwise — its tee guard being false for a `Response`
object — returns the same `Response` object, which becomes the constructor's
(truthy) `bodyIn`.  `counter` is not among the options passed. -/
def responseClone (resp : Response) : Except JsErr Response :=
  if respBodyUsed resp then .error (.plainError cloneUsedMsg)
  else
    constructResponse (some .respObj)
      { url := some resp.url
        status := some resp.status
        statusText := some resp.statusText
        headers := some (.hmap resp.headers)
        size := some (respSize resp)
        timeout := resp.timeout }

/-! ## Well-formedness of a header map

Every map reachable through the `Headers` API satisfies: valid names and
values, nonempty value lists, and no two entries with case-insensitively
equal names (`find` always routes a duplicate name to the existing entry). -/

/-- No later key is case-insensitively equal to an earlier one. -/
def nodupLower : List String → Bool
  | [] => true
  | k :: ks => ks.all (fun k2 => ¬ lowerStr k2 == lowerStr k) && nodupLower ks

/-- Well-formedness of a header map. -/
def headerMapWF (m : HeaderMap) : Bool :=
  m.all (fun e => validName e.1 && ¬ e.2.isEmpty && e.2.all validValue) &&
  nodupLower (m.map (·.1))

/-- The request `new Request("https://example.com/x")` evaluates to: a
bodyless GET request whose body field nevertheless holds a `Body` wrapping
the null source. -/
def c9ExampleRequest : Request :=
  { method := "GET"
    parsedURL := { protocol := some "https:", hostname := some "example.com"
                   rest := "/x" }
    headers := []
    redirect := "follow"
    signal := none
    body := some { source := .nullSrc }
    follow := 20
    compress := true
    counter := 0
    agent := none
    highWaterMark := none }

/-! # Theorems -/

/-! ## The JS string order is total and transitive -/

theorem charsLe_total : ∀ as bs : List Char, charsLe as bs = true ∨ charsLe bs as = true
  | [], _ => Or.inl rfl
  | _ :: _, [] => Or.inr rfl
  | a :: as, b :: bs => by
    simp only [charsLe]
    rcases Nat.lt_trichotomy a.toNat b.toNat with h | h | h
    · left; simp [h]
    · have h1 : ¬ a.toNat < b.toNat := by omega
      have h2 : ¬ b.toNat < a.toNat := by omega
      simpa [h1, h2] using charsLe_total as bs
    · right; simp [h]

theorem charsLe_trans : ∀ as bs cs : List Char,
    charsLe as bs = true → charsLe bs cs = true → charsLe as cs = true
  | [], _, _, _, _ => rfl
  | _ :: _, [], _, h1, _ => by simp [charsLe] at h1
  | _ :: _, _ :: _, [], _, h2 => by simp [charsLe] at h2
  | a :: as, b :: bs, c :: cs, h1, h2 => by
    simp only [charsLe] at h1 h2 ⊢
    by_cases hab : a.toNat < b.toNat <;> by_cases hbc : b.toNat < c.toNat
    · simp [show a.toNat < c.toNat by omega]
    · simp only [hbc, if_neg, if_false] at h2
      by_cases hcb : c.toNat < b.toNat
      · simp [hcb] at h2
      · have hbceq : b.toNat = c.toNat := by omega
        simp [show a.toNat < c.toNat by omega]
    · simp only [hab, if_neg, if_false] at h1
      by_cases hba : b.toNat < a.toNat
      · simp [hba] at h1
      · have habeq : a.toNat = b.toNat := by omega
        simp [show a.toNat < c.toNat by omega]
    · simp only [hab, if_neg, if_false] at h1
      simp only [hbc, if_neg, if_false] at h2
      by_cases hba : b.toNat < a.toNat
      · simp [hba] at h1
      · by_cases hcb : c.toNat < b.toNat
        · simp [hcb] at h2
        · have : ¬ a.toNat < c.toNat := by omega
          have : ¬ c.toNat < a.toNat := by omega
          simp only [hba, if_neg, if_false] at h1
          simp only [hcb, if_neg, if_false] at h2
          simp_all [charsLe_trans as bs cs h1 h2]

/-! ## C5 -/

/-- **C5** (corrected; counterexample): the claim states that `keys()` (and
with it `values()`/`entries()`) is ordered ascending by the *lower-cased*
header name.  On the map built by appending `a` then `B`, `keys()` yields
`["B", "a"]` — JS default sort on the stored casing puts `B` (code unit 66)
before `a` (97) — whose lower-cased projection `["b", "a"]` is not
ascending. -/
theorem c5_keys_not_lowercase_sorted_counterexample :
    (buildHeaders (some (.pairs [("a", "1"), ("B", "2")]))).toOption.map headersKeys
      = some ["B", "a"]
    ∧ ¬ List.Sorted strLeRel (["B", "a"].map lowerStr) := by
  constructor
  · decide
  · intro h
    rw [List.map_cons, List.map_cons, List.map_nil, List.sorted_cons] at h
    have := h.1 (lowerStr "a") (by simp)
    revert this
    decide

/-- **C5** (amended): the sequences produced by `keys()`, `values()` and
`entries()` are ordered lexicographically ascending by the *stored,
original-cased* header name under code-unit comparison (JS default string
sort) — not by the lower-cased name — with `values()` and `entries()`
following exactly the order of `keys()`. -/
theorem c5_iteration_sorted_by_stored_name (m : HeaderMap) :
    List.Sorted strLeRel (headersKeys m)
    ∧ headersValues m = (headersKeys m).map (fun k => joinComma (lookupKey m k))
    ∧ headersEntries m = (headersKeys m).map (fun k => (k, entryValue m k)) := by
  refine ⟨?_, rfl, rfl⟩
  exact @List.sorted_insertionSort String strLeRel _
    ⟨fun a b => charsLe_total a.data b.data⟩
    ⟨fun a b c => charsLe_trans a.data b.data c.data⟩
    (m.map (·.1))

/-! ## C1 -/

/-- **C1** (code bug, evaluated at the failing input): on a stream-backed,
unconsumed body, `clone` does *not* produce an independent copy — its tee
branch tests `body instanceof Stream` on the `Body` wrapper, which is never a
`Stream`, so the same body object is returned (same heap reference, no new
body allocated).  Draining the "clone" yields the stream's bytes, after which
draining the original — the same object — fails with the already-used
`TypeError`, contradicting the claim that consuming one copy does not disturb
or exhaust the other.  (The used-body rejection itself does hold: see the
`disturbed` guard of `cloneBody`.) -/
theorem c1_clone_returns_same_body_code_bug :
    cloneBody [{ source := .stream 7 }] 0 = .ok ([{ source := .stream 7 }], 0)
    ∧ (heapConsume [{ source := .stream 7 }] 0 [[1, 2], [3]]).1 = .ok [1, 2, 3]
    ∧ (heapConsume (heapConsume [{ source := .stream 7 }] 0 [[1, 2], [3]]).2 0
        [[1, 2], [3]]).1 = .error (.typeError bodyUsedMsg)
    ∧ cloneBody [{ source := .stream 7, disturbed := true }] 0
        = .error (.plainError cloneUsedMsg) := by
  refine ⟨rfl, rfl, rfl, rfl⟩

/-! ## C2 -/

/-- **C2** (code bug, evaluated at the claimed scenario):
`new Request("https://example.com", {method: "POST", body: "abc"})` projected
through `getNodeRequestOptions` carries the auto-populated
`Content-Type: text/plain;charset=UTF-8` — but *no* `Content-Length` header
at all, where the claim requires `Content-Length: "3"`.  `getTotalBytes`
destructures `request.body`, which after the mixin-to-composition refactor is
the `Body` wrapper rather than the underlying 3-byte buffer; the wrapper
matches none of the structural checks, `getTotalBytes` returns `null`, and
the `Content-Length` assignment is skipped. -/
theorem c2_content_length_missing_code_bug :
    ((constructRequest (.urlStr "https://example.com")
        { method := some "POST", body := some (.str "abc") }
      >>= getNodeRequestOptions).map
        (fun o => (headersGet o.headers "Content-Type",
                   headersHas o.headers "Content-Length")))
    = .ok (.ok (some "text/plain;charset=UTF-8"), .ok false) := by
  rfl

/-! ## C3 -/

/-- A disturbed body rejects any further consumption with the already-used
`TypeError`, leaving the state unchanged. -/
theorem consumeBody_disturbed (st : BodyState) (chunks : List (List Nat))
    (h : st.disturbed = true) :
    consumeBody st chunks = (.error (.typeError bodyUsedMsg), st) := by
  unfold consumeBody
  rw [h]
  rfl

/-- Any consumption attempt on an undisturbed body sets `disturbed`,
whatever its outcome. -/
theorem consumeBody_sets_disturbed (st : BodyState) (chunks : List (List Nat))
    (h : st.disturbed = false) :
    (consumeBody st chunks).2 = { st with disturbed := true } := by
  unfold consumeBody
  rw [h]
  cases st.error <;> cases st.source <;> rfl

/-- Every accessor is `consumeBody` followed by state-free post-processing. -/
theorem runAccessor_eq_consumeBody (a : Accessor) (st : BodyState)
    (chunks : List (List Nat)) : runAccessor a st chunks = consumeBody st chunks := by
  cases a <;> rfl

/-- **C3** (confirmed): on any body instance, the first call to any of
`text`/`json`/`buffer`/`arrayBuffer`/`blob` sets the `disturbed` flag —
whether the drain succeeds or fails — and every subsequent call to any of the
five accessors fails with the "body used already" `TypeError` (never the
first attempt's error), independent of which accessor came first or
second. -/
theorem c3_single_use (st : BodyState) (a1 a2 : Accessor)
    (chunks1 chunks2 : List (List Nat)) (h : st.disturbed = false) :
    (runAccessor a1 st chunks1).2.disturbed = true
    ∧ runAccessor a2 (runAccessor a1 st chunks1).2 chunks2
        = (.error (.typeError bodyUsedMsg), (runAccessor a1 st chunks1).2) := by
  rw [runAccessor_eq_consumeBody a1, runAccessor_eq_consumeBody a2]
  have hd : (consumeBody st chunks1).2.disturbed = true := by
    rw [consumeBody_sets_disturbed st chunks1 h]
  exact ⟨hd, consumeBody_disturbed _ chunks2 hd⟩

/-- **C3** witness: a buffer body drained by `text()` then queried by
`json()`. -/
theorem c3_witness :
    (runAccessor .text { source := BodySource.buffer [104, 105] } []).2.disturbed = true
    ∧ runAccessor .json
        (runAccessor .text { source := BodySource.buffer [104, 105] } []).2 []
      = (.error (.typeError bodyUsedMsg),
         (runAccessor .text { source := BodySource.buffer [104, 105] } []).2) :=
  c3_single_use { source := BodySource.buffer [104, 105] } .text .json [] [] rfl

/-! ## C4 -/

/-- Total byte count of a chunk sequence. -/
def totalChunkBytes (chunks : List (List Nat)) : Nat :=
  (chunks.map (·.length)).sum

/-- The accumulation loop rejects with a `max-size` `FetchError` whenever the
arriving chunks push the running byte count over a nonzero cap. -/
theorem streamAccum_over_cap : ∀ (chunks : List (List Nat)) (cap acc : Nat),
    cap ≠ 0 → acc ≤ cap → cap < acc + totalChunkBytes chunks →
    streamAccum cap acc chunks = .error (.fetchErr .maxSize)
  | [], _, _, _, hle, hover => by
    simp [totalChunkBytes] at hover
    omega
  | c :: rest, cap, acc, hcap, hle, hover => by
    simp only [streamAccum]
    by_cases hc : acc + c.length > cap
    · rw [if_pos ⟨hcap, hc⟩]
    · rw [if_neg (by tauto)]
      have hrest : streamAccum cap (acc + c.length) rest = .error (.fetchErr .maxSize) := by
        apply streamAccum_over_cap rest cap (acc + c.length) hcap (by omega)
        simp [totalChunkBytes] at hover ⊢
        omega
      rw [hrest]

/-- **C4** (confirmed): draining a stream-backed, unconsumed, error-free body
whose configured size cap `N` is positive fails with the operational
`max-size` fetch error whenever the cumulative byte count of the arriving
chunks exceeds `N`; every one of the five accessors propagates that error, so
none returns (partial) data. -/
theorem c4_size_cap (st : BodyState) (sid : Nat) (chunks : List (List Nat))
    (a : Accessor) (hsrc : st.source = .stream sid) (hdist : st.disturbed = false)
    (herr : st.error = none) (hpos : 0 < st.size)
    (hover : st.size < totalChunkBytes chunks) :
    (runAccessor a st chunks).1 = .error (.fetchErr .maxSize) := by
  rw [runAccessor_eq_consumeBody]
  unfold consumeBody
  rw [hdist, herr, hsrc]
  simp only
  rw [streamAccum_over_cap chunks st.size 0 (by omega) (by omega) (by omega)]
  rfl

/-- **C4** witness: cap 3, arriving chunks of 2 + 2 bytes. -/
theorem c4_witness :
    (runAccessor .buffer { source := .stream 0, size := 3 } [[1, 2], [3, 4]]).1
      = .error (.fetchErr .maxSize) :=
  c4_size_cap { source := .stream 0, size := 3 } 0 [[1, 2], [3, 4]] .buffer
    rfl rfl rfl (by decide) (by decide)

/-! ## C6 -/

/-- `find` succeeds when some stored entry's name matches up to case. -/
theorem findKey_isSome_of (m : HeaderMap) (q : String)
    (h : ∃ e ∈ m, lowerStr e.1 = lowerStr q) : (findKey m q).isSome = true := by
  obtain ⟨e, he, hp⟩ := h
  unfold findKey
  cases hf : m.find? (fun e => lowerStr e.1 == lowerStr q) with
  | none =>
    rw [List.find?_eq_none] at hf
    exact absurd (by simpa using hp) (by simpa using hf e he)
  | some e' => rfl

/-- `find` fails when no stored entry's name matches up to case. -/
theorem findKey_eq_none_of (m : HeaderMap) (q : String)
    (h : ∀ e ∈ m, lowerStr e.1 ≠ lowerStr q) : findKey m q = none := by
  unfold findKey
  rw [Option.map_eq_none', List.find?_eq_none]
  intro e he
  simpa using h e he

/-- **C6** (confirmed): after `set(name, value)` or `append(name, value)`
with grammar-valid inputs, `has(q)` answers true for every casing variant `q`
of the name; and `get(qq)` returns null for any valid name `qq` that no
stored entry matches up of case. -/
theorem c6_case_insensitive_lookup (m : HeaderMap) (name value q qq : String)
    (hn : validName name = true) (hv : validValue value = true)
    (hq : lowerStr q = lowerStr name) (hqv : validName q = true)
    (hqq : validName qq = true)
    (habs : ∀ e ∈ m, lowerStr e.1 ≠ lowerStr qq) :
    (∃ m', headersSet m name value = .ok m' ∧ headersHas m' q = .ok true)
    ∧ (∃ m', headersAppend m name value = .ok m' ∧ headersHas m' q = .ok true)
    ∧ headersGet m qq = .ok none := by
  have hasOf : ∀ m' : HeaderMap, (∃ e ∈ m', lowerStr e.1 = lowerStr q) →
      headersHas m' q = .ok true := by
    intro m' hex
    unfold headersHas
    rw [if_neg (by simp [hqv])]
    rw [findKey_isSome_of m' q hex]
  have hfind : ∀ key, findKey m name = some key →
      ∃ e₀ ∈ m, e₀.1 = key ∧ lowerStr key = lowerStr name := by
    intro key hk
    unfold findKey at hk
    rw [Option.map_eq_some'] at hk
    obtain ⟨e₀, he₀, hfst⟩ := hk
    have hmem := List.mem_of_find?_eq_some he₀
    have hp := List.find?_some he₀
    simp only [beq_iff_eq] at hp
    rw [hfst] at hp
    exact ⟨e₀, hmem, hfst, hp⟩
  refine ⟨?_, ?_, ?_⟩
  · -- set
    cases hk : findKey m name with
    | some key =>
      obtain ⟨e₀, hmem, hfst, hlow⟩ := hfind key hk
      refine ⟨m.map (fun e => if e.1 == key then (e.1, [value]) else e), ?_, ?_⟩
      · unfold headersSet
        rw [if_neg (by simp [hn]), if_neg (by simp [hv]), hk]
      · apply hasOf
        refine ⟨(e₀.1, [value]), ?_, ?_⟩
        · apply List.mem_map_of_mem (fun e => if e.1 == key then (e.1, [value]) else e) at hmem
          simpa [hfst] using hmem
        · simp only [hfst, hlow, hq]
    | none =>
      refine ⟨m ++ [(name, [value])], ?_, ?_⟩
      · unfold headersSet
        rw [if_neg (by simp [hn]), if_neg (by simp [hv]), hk]
      · exact hasOf _ ⟨(name, [value]), by simp, by rw [hq]⟩
  · -- append
    cases hk : findKey m name with
    | some key =>
      obtain ⟨e₀, hmem, hfst, hlow⟩ := hfind key hk
      refine ⟨m.map (fun e => if e.1 == key then (e.1, e.2 ++ [value]) else e), ?_, ?_⟩
      · unfold headersAppend
        rw [if_neg (by simp [hn]), if_neg (by simp [hv]), hk]
      · apply hasOf
        refine ⟨(e₀.1, e₀.2 ++ [value]), ?_, ?_⟩
        · apply List.mem_map_of_mem
            (fun e => if e.1 == key then (e.1, e.2 ++ [value]) else e) at hmem
          simpa [hfst] using hmem
        · simp only [hfst, hlow, hq]
    | none =>
      refine ⟨m ++ [(name, [value])], ?_, ?_⟩
      · unfold headersAppend
        rw [if_neg (by simp [hn]), if_neg (by simp [hv]), hk]
      · exact hasOf _ ⟨(name, [value]), by simp, by rw [hq]⟩
  · -- get on a never-set name
    unfold headersGet
    rw [if_neg (by simp [hqq])]
    rw [findKey_eq_none_of m qq habs]

/-- **C6** witness: `Content-Type` set or appended on the empty map is found
under the casing `content-TYPE`; `X-Missing` was never set and gets null. -/
theorem c6_witness :
    ((∃ m', headersSet [] "Content-Type" "text/html" = .ok m'
        ∧ headersHas m' "content-TYPE" = .ok true)
     ∧ (∃ m', headersAppend [] "Content-Type" "text/html" = .ok m'
        ∧ headersHas m' "content-TYPE" = .ok true)
     ∧ headersGet [] "X-Missing" = .ok none) :=
  c6_case_insensitive_lookup [] "Content-Type" "text/html" "content-TYPE" "X-Missing"
    (by decide) (by decide) (by decide) (by decide) (by decide) (by simp)

/-! ## C7 and C9: the request constructor -/

theorem except_isOk_exists {α : Type} {e : Except JsErr α} (h : e.isOk = true) :
    ∃ a, e = .ok a := by
  cases e with
  | ok a => exact ⟨a, rfl⟩
  | error err => simp [Except.isOk, Except.toBool] at h

/-- `append` with grammar-valid inputs never throws. -/
theorem headersAppend_ok (m : HeaderMap) (n v : String)
    (hn : validName n = true) (hv : validValue v = true) :
    headersAppend m n v = .ok (match findKey m n with
      | some key => m.map (fun e => if e.1 == key then (e.1, e.2 ++ [v]) else e)
      | none => m ++ [(n, [v])]) := by
  unfold headersAppend
  rw [if_neg (by simp [hn]), if_neg (by simp [hv])]

/-- `has` on a valid name never throws. -/
theorem headersHas_valid (m : HeaderMap) (n : String) (hn : validName n = true) :
    headersHas m n = .ok (findKey m n).isSome := by
  unfold headersHas
  rw [if_neg (by simp [hn])]

/-- The `Content-Type` auto-append never throws when the extracted type is a
valid header value. -/
theorem applyContentType_ok (headers : HeaderMap) (v : JsVal)
    (hct : ctValid v = true) :
    ∃ m', applyContentType headers (some v) = .ok m' := by
  unfold applyContentType
  rw [if_pos (by simp)]
  rw [headersHas_valid headers "Content-Type" (by decide)]
  cases hfk : (findKey headers "Content-Type").isSome with
  | true => exact ⟨headers, rfl⟩
  | false =>
    simp only []
    cases hext : extractContentType (some v) with
    | none => exact ⟨headers, rfl⟩
    | some ct =>
      unfold ctValid at hct
      rw [hext] at hct
      exact ⟨_, headersAppend_ok headers "Content-Type" ct (by decide) hct⟩

/-- The constructor's first possible rejection: a supplied body together with
a resolved method of GET or HEAD throws the `TypeError` before any other
step can run. -/
theorem construct_rejects_get_head_with_body (input : RequestInput)
    (init : RequestInit) (hbody : requestBodySupplied input init = true)
    (hm : resolvedMethod input init = "GET" ∨ resolvedMethod input init = "HEAD") :
    constructRequest input init = .error (.typeError getHeadBodyMsg) := by
  unfold constructRequest
  simp only []
  rw [if_pos ⟨hbody, hm⟩]

/-- Construction succeeds whenever the method check passes, the body
resolves, the headers initializer validates, the extracted content type is a
valid value, and the signal has the accepted shape. -/
theorem construct_ok_of_inputBody (input : RequestInput) (init : RequestInit)
    (v : JsVal) (hib : resolvedInputBody input init = .ok (some v))
    (hm : resolvedMethod input init = "POST")
    (hh : (buildHeaders (some (resolvedHeadersArg input init))).isOk = true)
    (hct : ctValid v = true)
    (hs : signalShapeOk (resolvedSignal input init) = true) :
    ∃ r, constructRequest input init = .ok r := by
  obtain ⟨m0, hm0⟩ := except_isOk_exists hh
  unfold constructRequest
  rw [if_neg (by rintro ⟨-, h | h⟩ <;> rw [hm] at h <;> exact absurd h (by decide))]
  rw [hib]
  simp only []
  rw [hm0]
  simp only []
  obtain ⟨m1, hm1⟩ := applyContentType_ok m0 v hct
  rw [hm1]
  simp only []
  cases hsig : resolvedSignal input init with
  | none => exact ⟨_, rfl⟩
  | some sv =>
    unfold signalShapeOk at hs
    rw [hsig] at hs
    simp only [] at hs
    simp only []
    rw [if_pos hs]
    exact ⟨_, rfl⟩

/-- Every successfully constructed request holds a body object. -/
theorem construct_ok_body_isSome (input : RequestInput) (init : RequestInit)
    (r : Request) (hok : constructRequest input init = .ok r) :
    r.body.isSome = true := by
  unfold constructRequest at hok
  simp only [] at hok
  split at hok
  · cases hok
  · split at hok
    · cases hok
    · split at hok
      · cases hok
      · split at hok
        · cases hok
        · split at hok
          · cases hok
          · cases hok
            rfl

/-- **C7** (confirmed): with a body supplied — by the init override or
carried by a source request — a resolved method of GET or HEAD makes the
constructor throw the GET/HEAD-with-body `TypeError`; the identical
construction with resolved method POST succeeds, whether the body is an init
override (second conjunct) or the duplicate of a source request's unconsumed
body (third conjunct), provided the remaining inputs pass their own
validation (headers initializer, extracted content type, signal shape). -/
theorem c7_get_head_body_rejected (input : RequestInput) (init : RequestInit)
    (hbody : requestBodySupplied input init = true) :
    ((resolvedMethod input init = "GET" ∨ resolvedMethod input init = "HEAD") →
        constructRequest input init = .error (.typeError getHeadBodyMsg))
    ∧ (∀ v : JsVal, init.body = some v →
        resolvedMethod input init = "POST" →
        (buildHeaders (some (resolvedHeadersArg input init))).isOk = true →
        ctValid v = true →
        signalShapeOk (resolvedSignal input init) = true →
        ∃ r, constructRequest input init = .ok r)
    ∧ (∀ (r0 : Request) (bst : BodyState), input = .request r0 →
        init.body = none → r0.body = some bst → bst.disturbed = false →
        resolvedMethod input init = "POST" →
        (buildHeaders (some (resolvedHeadersArg input init))).isOk = true →
        signalShapeOk (resolvedSignal input init) = true →
        ∃ r, constructRequest input init = .ok r) := by
  refine ⟨fun hm => construct_rejects_get_head_with_body input init hbody hm, ?_, ?_⟩
  · intro v hv hm hh hct hs
    apply construct_ok_of_inputBody input init v _ hm hh hct hs
    unfold resolvedInputBody
    rw [hv]
  · intro r0 bst hin hnone hb hdist hm hh hs
    apply construct_ok_of_inputBody input init (.bodyObj bst) _ hm hh (by rfl) hs
    unfold resolvedInputBody
    rw [hnone, hin]
    simp only []
    rw [hb]
    simp only []
    rw [hdist]
    rfl

/-- **C7** witness: `new Request("https://example.com", {method, body:"abc"})`
throws for GET, succeeds for POST. -/
theorem c7_witness :
    constructRequest (.urlStr "https://example.com")
        { method := some "GET", body := some (.str "abc") }
      = .error (.typeError getHeadBodyMsg)
    ∧ ∃ r, constructRequest (.urlStr "https://example.com")
        { method := some "POST", body := some (.str "abc") } = .ok r := by
  constructor
  · exact (c7_get_head_body_rejected (.urlStr "https://example.com")
      { method := some "GET", body := some (.str "abc") } (by decide)).1
      (Or.inl (by decide))
  · exact (c7_get_head_body_rejected (.urlStr "https://example.com")
      { method := some "POST", body := some (.str "abc") } (by decide)).2.1
      (.str "abc") rfl (by decide) (by decide) (by decide) (by decide)

/-- **C9** (confirmed): every successful `Request` construction yields a
request whose body field holds a `Body` object (never null) — a bodyless
request wraps the null source — and consequently constructing a request from
any successfully constructed request whose method is GET or HEAD, which is
exactly what `clone()` does, throws the GET/HEAD-with-body `TypeError`, even
when the source request was built without a body. -/
theorem c9_body_never_null (input : RequestInput) (init : RequestInit)
    (r : Request) (hok : constructRequest input init = .ok r) :
    r.body.isSome = true
    ∧ ((r.method = "GET" ∨ r.method = "HEAD") →
        requestClone r = .error (.typeError getHeadBodyMsg)) := by
  have hbody := construct_ok_body_isSome input init r hok
  refine ⟨hbody, fun hm => ?_⟩
  unfold requestClone
  apply construct_rejects_get_head_with_body
  · unfold requestBodySupplied
    simpa using hbody
  · rcases hm with h | h
    · exact Or.inl (by unfold resolvedMethod; simp only []; rw [h]; decide)
    · exact Or.inr (by unfold resolvedMethod; simp only []; rw [h]; decide)

/-- **C9** witness: a bodyless GET request is constructed with a non-null
body object, and cloning it throws. -/
theorem c9_witness :
    constructRequest (.urlStr "https://example.com/x") {} = .ok c9ExampleRequest
    ∧ c9ExampleRequest.body.isSome = true
    ∧ requestClone c9ExampleRequest = .error (.typeError getHeadBodyMsg) := by
  have hok : constructRequest (.urlStr "https://example.com/x") {}
      = .ok c9ExampleRequest := by rfl
  have h := c9_body_never_null (.urlStr "https://example.com/x") {} c9ExampleRequest hok
  exact ⟨hok, h.1, h.2 (Or.inl rfl)⟩

/-! ## C8: cloning a Response copies scalars (but not the counter) -/

theorem map_id_of_mem {α : Type} (l : List α) (f : α → α)
    (h : ∀ a ∈ l, f a = a) : l.map f = l := by
  induction l with
  | nil => rfl
  | cons a l ih =>
    rw [List.map_cons, h a (by simp), ih (fun a ha => h a (by simp [ha]))]

/-- On a map whose names all differ from `k` up to case, a fresh entry for
`k` at the end is what `find` locates. -/
theorem findKey_append_singleton (acc : HeaderMap) (k : String) (us : List String)
    (hdisj : ∀ e ∈ acc, lowerStr e.1 ≠ lowerStr k) :
    findKey (acc ++ [(k, us)]) k = some k := by
  unfold findKey
  rw [List.find?_append]
  have h1 : acc.find? (fun e => lowerStr e.1 == lowerStr k) = none := by
    rw [List.find?_eq_none]
    intro e he
    simpa using hdisj e he
  rw [h1]
  simp

/-- Appending a value for a fresh name adds a new single-value entry at the
end. -/
theorem headersAppend_new (acc : HeaderMap) (k v : String)
    (hk : validName k = true) (hv : validValue v = true)
    (hdisj : ∀ e ∈ acc, lowerStr e.1 ≠ lowerStr k) :
    headersAppend acc k v = .ok (acc ++ [(k, [v])]) := by
  rw [headersAppend_ok acc k v hk hv, findKey_eq_none_of acc k hdisj]

/-- Appending a further value for a name stored as the last entry pushes onto
that entry only. -/
theorem headersAppend_last (acc : HeaderMap) (k v : String) (us : List String)
    (hk : validName k = true) (hv : validValue v = true)
    (hdisj : ∀ e ∈ acc, lowerStr e.1 ≠ lowerStr k) :
    headersAppend (acc ++ [(k, us)]) k v = .ok (acc ++ [(k, us ++ [v])]) := by
  rw [headersAppend_ok _ k v hk hv, findKey_append_singleton acc k us hdisj]
  simp only [List.map_append]
  rw [map_id_of_mem acc _ (fun e he => by
    have : ¬ (e.1 == k) = true := by
      simp only [beq_iff_eq]
      intro hek
      exact hdisj e he (by rw [hek])
    simp [this])]
  simp

theorem exc_ok_bind {α β : Type} (a : α) (f : α → Except JsErr β) :
    (Except.ok a >>= f) = f a := rfl

theorem appendPairs_cons (m : HeaderMap) (n v : String)
    (rest : List (String × String)) :
    appendPairs m ((n, v) :: rest)
      = headersAppend m n v >>= fun m' => appendPairs m' rest := rfl

theorem appendPairs_append (m : HeaderMap) (l1 l2 : List (String × String)) :
    appendPairs m (l1 ++ l2)
      = (appendPairs m l1) >>= fun m' => appendPairs m' l2 := by
  induction l1 generalizing m with
  | nil => rfl
  | cons p l1 ih =>
    obtain ⟨n, v⟩ := p
    rw [List.cons_append, appendPairs_cons, appendPairs_cons]
    cases headersAppend m n v with
    | error e => rfl
    | ok m' =>
      simp only [exc_ok_bind]
      exact ih m'

/-- Replaying the value list of one entry onto a map ending with that entry's
name accumulates exactly that list. -/
theorem appendPairs_values (vs : List String) (acc : HeaderMap) (k : String)
    (us : List String) (hk : validName k = true)
    (hvs : vs.all validValue = true)
    (hdisj : ∀ e ∈ acc, lowerStr e.1 ≠ lowerStr k) :
    appendPairs (acc ++ [(k, us)]) (vs.map (fun v => (k, v)))
      = .ok (acc ++ [(k, us ++ vs)]) := by
  induction vs generalizing us with
  | nil => simp [appendPairs]
  | cons v vs ih =>
    simp only [List.all_cons, Bool.and_eq_true] at hvs
    rw [List.map_cons]
    show appendPairs _ ((k, v) :: _) = _
    unfold appendPairs
    rw [headersAppend_last acc k v us hk hvs.1 hdisj]
    show appendPairs (acc ++ [(k, us ++ [v])]) _ = _
    rw [ih (us ++ [v]) hvs.2]
    simp

/-- Replaying `rawPairs m` through `append` onto a map whose names are
disjoint from `m`'s reproduces `m` at the end, for well-formed `m`. -/
theorem appendPairs_rawPairs (m : HeaderMap) (acc : HeaderMap)
    (hval : m.all (fun e => validName e.1 && ¬ e.2.isEmpty && e.2.all validValue) = true)
    (hnodup : nodupLower (m.map (·.1)) = true)
    (hdisj : ∀ e ∈ acc, ∀ e2 ∈ m, lowerStr e.1 ≠ lowerStr e2.1) :
    appendPairs acc (rawPairs m) = .ok (acc ++ m) := by
  induction m generalizing acc with
  | nil => simp [rawPairs, appendPairs]
  | cons ent rest ih =>
    obtain ⟨k, vs⟩ := ent
    simp only [List.all_cons, Bool.and_eq_true] at hval
    obtain ⟨⟨⟨hk, hne⟩, hvv⟩, hvalrest⟩ := hval
    simp only [List.map_cons] at hnodup
    unfold nodupLower at hnodup
    rw [Bool.and_eq_true] at hnodup
    obtain ⟨hkdis, hnodrest⟩ := hnodup
    have hraw : rawPairs ((k, vs) :: rest)
        = (vs.map (fun v => (k, v))) ++ rawPairs rest := by
      simp [rawPairs]
    rw [hraw, appendPairs_append]
    have hdisk : ∀ e ∈ acc, lowerStr e.1 ≠ lowerStr k := by
      intro e he
      exact hdisj e he (k, vs) (by simp)
    cases vs with
    | nil => simp at hne
    | cons v0 vs' =>
      simp only [List.all_cons, Bool.and_eq_true] at hvv
      rw [List.map_cons, appendPairs_cons]
      rw [headersAppend_new acc k v0 hk hvv.1 hdisk]
      simp only [exc_ok_bind]
      rw [appendPairs_values vs' acc k [v0] hk hvv.2 hdisk]
      simp only [exc_ok_bind, List.singleton_append]
      rw [ih (acc ++ [(k, v0 :: vs')]) hvalrest hnodrest ?_]
      · simp
      · intro e he e2 he2
        rcases List.mem_append.mp he with hin | hin
        · exact hdisj e hin e2 (by simp [he2])
        · simp only [List.mem_singleton] at hin
          subst hin
          rw [List.all_eq_true] at hkdis
          have hne2 := hkdis e2.1 (List.mem_map_of_mem (·.1) he2)
          simp only [decide_eq_true_eq, beq_iff_eq] at hne2
          exact fun hegal => hne2 hegal.symm

/-- Copying a well-formed header map through the `Headers` constructor
reproduces it exactly. -/
theorem buildHeaders_copy (m : HeaderMap) (hwf : headerMapWF m = true) :
    buildHeaders (some (.hmap m)) = .ok m := by
  unfold headerMapWF at hwf
  rw [Bool.and_eq_true] at hwf
  show appendPairs [] (rawPairs m) = .ok m
  rw [appendPairs_rawPairs m [] hwf.1 hwf.2 (by simp)]
  rfl

/-- **C8** (corrected; counterexample): the claim includes the redirect
counter among the copied scalar fields.  A response constructed with
`counter = 3` (and an unconsumed body) clones successfully, but the clone's
counter is unset — `Response.clone` does not pass `counter` among the
options, and the constructor stores `opts.counter` as-is. -/
theorem c8_counter_not_copied_counterexample :
    ((constructResponse (some (.str "x")) { counter := some 3 }).toOption.map
        (fun r => r.counter)) = some (some 3)
    ∧ ((constructResponse (some (.str "x")) { counter := some 3 }
          >>= responseClone).toOption.map (fun c => c.counter)) = some none := by
  exact ⟨rfl, rfl⟩

/-- **C8** (amended): for a `Response` whose body is unconsumed, `clone()`
succeeds and the new `Response` has equal status, status text, origin URL,
and headers (stated for well-formed header maps that already carry a
`Content-Type` entry, which every constructed response with a body does) —
but the redirect counter is *not* copied: the clone's counter is unset.
`clone()` fails when the body has been consumed. -/
theorem c8_clone_copies_scalars_except_counter (resp : Response)
    (hwf : headerMapWF resp.headers = true)
    (hct : (findKey resp.headers "Content-Type").isSome = true) :
    (respBodyUsed resp = false →
      ∃ c, responseClone resp = .ok c
        ∧ c.status = resp.status ∧ c.statusText = resp.statusText
        ∧ c.url = resp.url ∧ c.headers = resp.headers ∧ c.counter = none)
    ∧ (respBodyUsed resp = true →
        responseClone resp = .error (.plainError cloneUsedMsg)) := by
  constructor
  · intro hused
    unfold responseClone
    rw [if_neg (by simp [hused])]
    unfold constructResponse
    simp only []
    rw [buildHeaders_copy resp.headers hwf]
    have hap : applyContentType resp.headers
        (some (.bodyObj (mkBody (some .respObj)))) = .ok resp.headers := by
      unfold applyContentType
      rw [if_pos (by simp)]
      rw [headersHas_valid resp.headers "Content-Type" (by decide), hct]
    simp only []
    rw [show responseBody (some JsVal.respObj)
        = some (mkBody (some .respObj)) from rfl]
    simp only []
    rw [hap]
    exact ⟨_, rfl, rfl, rfl, rfl, rfl, rfl⟩
  · intro hused
    unfold responseClone
    rw [if_pos hused]

/-- **C8** witness for the amended claim: a concrete response with
`counter = 3` and body `"x"`; its clone keeps status 301, status text
`"Moved"`, url, headers, and has no counter; after draining, cloning
fails. -/
theorem c8_witness :
    (∃ c, responseClone
        { status := 301, statusText := "Moved"
          headers := [("Content-Type", ["text/plain;charset=UTF-8"])]
          counter := some 3, url := "https://example.com/"
          body := some { source := BodySource.buffer [120] } } = .ok c
      ∧ c.status = 301 ∧ c.statusText = "Moved" ∧ c.url = "https://example.com/"
      ∧ c.headers = [("Content-Type", ["text/plain;charset=UTF-8"])]
      ∧ c.counter = none)
    ∧ responseClone
        { status := 301, statusText := "Moved"
          headers := [("Content-Type", ["text/plain;charset=UTF-8"])]
          counter := some 3, url := "https://example.com/"
          body := some { source := BodySource.buffer [120], disturbed := true } }
      = .error (.plainError cloneUsedMsg) := by
  constructor
  · exact (c8_clone_copies_scalars_except_counter
      { status := 301, statusText := "Moved"
        headers := [("Content-Type", ["text/plain;charset=UTF-8"])]
        counter := some 3, url := "https://example.com/"
        body := some { source := BodySource.buffer [120] } }
      (by decide) (by decide)).1 rfl
  · exact (c8_clone_copies_scalars_except_counter
      { status := 301, statusText := "Moved"
        headers := [("Content-Type", ["text/plain;charset=UTF-8"])]
        counter := some 3, url := "https://example.com/"
        body := some { source := BodySource.buffer [120], disturbed := true } }
      (by decide) (by decide)).2 rfl

/-! ## C10 -/

/-- **C10** (confirmed): constructing a `Response` with a falsy body argument
— absent, `null`, or the empty string — yields a response with no body
object: every body-consuming accessor returns a rejected promise with the
plain reason `'no body'` (nothing is drained and no state changes),
`bodyUsed` is false, and `size` is 0. -/
theorem c10_falsy_body_means_no_body (bodyIn : Option JsVal)
    (opts : ResponseInit) (resp : Response)
    (hfalsy : bodyIn = none ∨ bodyIn = some .nullVal ∨ bodyIn = some (.str ""))
    (hok : constructResponse bodyIn opts = .ok resp) :
    resp.body = none
    ∧ (∀ (a : Accessor) (chunks : List (List Nat)),
        respAccess a resp chunks = (.error (.rejected "no body"), resp))
    ∧ respBodyUsed resp = false
    ∧ respSize resp = 0 := by
  have hrb : responseBody bodyIn = none := by
    rcases hfalsy with h | h | h <;> rw [h] <;> rfl
  unfold constructResponse at hok
  rw [hrb] at hok
  simp only [] at hok
  split at hok
  · cases hok
  · cases hok
    refine ⟨rfl, ?_, rfl, rfl⟩
    intro a chunks
    unfold respAccess
    rfl

/-- **C10** witness: `new Response("")` (empty string, falsy) has no body,
rejects `text()` with `'no body'`, and reports `bodyUsed = false`,
`size = 0`. -/
theorem c10_witness :
    ∃ resp, constructResponse (some (.str "")) {} = .ok resp
      ∧ resp.body = none
      ∧ respAccess .text resp [] = (.error (.rejected "no body"), resp)
      ∧ respBodyUsed resp = false
      ∧ respSize resp = 0 := by
  cases hok : constructResponse (some (.str "")) {} with
  | error e => cases hok.symm.trans (show constructResponse (some (.str "")) {}
      = .ok { status := 200, statusText := "", headers := [], counter := none
              url := "", body := none } from rfl)
  | ok resp =>
    have h := c10_falsy_body_means_no_body (some (.str "")) {} resp
      (Or.inr (Or.inr rfl)) hok
    exact ⟨resp, rfl, h.1, h.2.1 .text [], h.2.2.1, h.2.2.2⟩

end Fetch
